import Mathlib

/-!
Verification of the data-normalization and cascading-filter/aggregation engine of
`src/app.py` (a Streamlit financial dashboard).

Shallow embedding conventions:
  * a Python `str` value is modelled as a `List Char` (named `Str` below); this keeps
    every comparison and transformation kernel-computable;
  * pandas numeric cells, after coercion, are modelled as `ℚ` (exact rational
    arithmetic in place of float64; a rational is always a finite value);
  * a pandas `DataFrame` of the fixed 11-column schema is a `List` of records;
  * fallible parsing (`pd.to_numeric(errors='coerce')`) returns an `Option`,
    and `.fillna(0)` is `Option.getD 0`.
-/

/-- A Python string, modelled as its list of characters. -/
abbrev Str := List Char

/-- Embed a Lean string literal into the `Str` model. -/
def str (s : String) : Str := s.data

/-- Lexicographic order on strings by code point, as Python `sorted` uses. -/
def strLe : Str → Str → Bool
  | [], _ => true
  | _ :: _, [] => false
  | a :: as, b :: bs => if a < b then true else if a = b then strLe as bs else false

/-- Model of Python `sorted` on a list of strings. -/
def sortStr (l : List Str) : List Str :=
  List.insertionSort (fun a b => strLe a b = true) l

/-- Model of `sorted(series.unique().tolist())`: deduplicate, then sort. -/
def sortedUnique (l : List Str) : List Str := sortStr l.dedup

/-- Model of `series.str.upper()` applied to one cell. -/
def upper (s : Str) : Str := s.map Char.toUpper

/-- Numeric value of an ASCII digit character. -/
def charVal (c : Char) : ℕ := c.toNat - 48

/-- The characters kept by the `str.replace(r'[^\d.]', '', regex=True)` scrub of
line 208 of `src/app.py`: decimal digits and the dot. -/
def isAmountChar (c : Char) : Bool := c.isDigit || c == '.'

/-- Line 208 of `src/app.py`: drop every character of the cell that is not a
decimal digit or a dot. -/
def stripCell (s : Str) : Str := s.filter isAmountChar

/-- Value of a big-endian string of decimal digit characters. -/
def natOfDigits (l : Str) : ℕ := l.foldl (fun a c => 10 * a + charVal c) 0

/-- Number of digits after the dot of a stripped cell (0 when there is no dot). -/
def fracLen (l : Str) : ℕ :=
  if '.' ∈ l then (l.reverse.takeWhile (fun c => c != '.')).length else 0

/-- Model of `pd.to_numeric(col, errors='coerce')` on a stripped cell (which holds
only digits and dots): the parse succeeds exactly when the cell has at most one dot
and at least one digit, and then yields the digit string read as a decimal scaled by
the number of fractional digits; otherwise the cell becomes NaN (`none`).
The value is returned as a pair `(m, k)` denoting `m / 10 ^ k`. -/
def toNumericParts (l : Str) : Option (ℕ × ℕ) :=
  if l.count '.' ≤ 1 ∧ l.any Char.isDigit then
    some (natOfDigits (l.filter Char.isDigit), fracLen l)
  else none

/-- The rational value of `pd.to_numeric` on a stripped cell. -/
def toNumeric (l : Str) : Option ℚ :=
  (toNumericParts l).map (fun p => (p.1 : ℚ) / 10 ^ p.2)

/-- Lines 208–209 of `src/app.py` for a single cell: strip every character that is
not a digit or a dot, parse, and let `.fillna(0)` turn a failed parse into 0. -/
def parseAmount (s : Str) : ℚ := (toNumeric (stripCell s)).getD 0

/-- The `(m, k)` decimal representation (`m / 10 ^ k`) that the coercion of lines
208–209 assigns to a cell; a failed parse is the pair `(0, 0)`. -/
def parseAmountParts (s : Str) : ℕ × ℕ := (toNumericParts (stripCell s)).getD (0, 0)

/-- The ASCII character of a decimal digit. -/
def digitChar : ℕ → Char
  | 0 => '0'
  | 1 => '1'
  | 2 => '2'
  | 3 => '3'
  | 4 => '4'
  | 5 => '5'
  | 6 => '6'
  | 7 => '7'
  | 8 => '8'
  | _ => '9'

/-- Big-endian digit characters of a natural number (empty for 0). -/
def digitChars (m : ℕ) : Str := ((Nat.digits 10 m).map digitChar).reverse

/-- Positional decimal rendering of the value `m / 10 ^ k`: the digits of `m`
padded on the left with zeros so a digit stands before the dot, a dot, then the
last `k` digits as the fractional part; for a whole number the fractional part is
a single zero (`50.0`, `120000.5`). This is only the positional branch of
Python's float rendering — `stringifyCell` below adds the scientific-notation
branch `str()` uses for values below 1e-4 or at least 1e16. -/
def stringifyParts (p : ℕ × ℕ) : Str :=
  if p.2 = 0 then digitChars p.1 ++ ['.', '0']
  else
    let ds := List.replicate (p.2 + 1 - (digitChars p.1).length) '0' ++ digitChars p.1
    ds.take (ds.length - p.2) ++ '.' :: ds.drop (ds.length - p.2)

/-- Drop the trailing zero digits of a digit string (Python renders the shortest
mantissa). -/
def stripTrailingZeros (l : Str) : Str :=
  (l.reverse.dropWhile (fun c => c == '0')).reverse

/-- Exponent digits of Python's scientific notation: zero-padded to width two
(`1e-05`, `1e+16`, `1e+100`). -/
def expDigits (n : ℕ) : Str :=
  if n < 10 then '0' :: digitChars n else digitChars n

/-- Scientific-notation rendering of the nonzero value `m / 10 ^ k`, as Python
`str()` produces it: a mantissa with one digit before the dot and the trailing
zeros dropped, then `e`, a sign, and the zero-padded decimal exponent —
`(1, 5) ↦ "1e-05"`, `(12, 6) ↦ "1.2e-05"`, `(10 ^ 16, 0) ↦ "1e+16"`. -/
def sciRender (p : ℕ × ℕ) : Str :=
  let ds := digitChars p.1
  let mant :=
    match stripTrailingZeros ds with
    | [] => ['0']
    | d :: rest => if rest = [] then [d] else d :: '.' :: rest
  let e : ℤ := (ds.length : ℤ) - 1 - (p.2 : ℤ)
  if e < 0 then mant ++ 'e' :: '-' :: expDigits e.natAbs
  else mant ++ 'e' :: '+' :: expDigits e.toNat

/-- Whether Python `str()` renders the value `m / 10 ^ k` in scientific notation:
the value is nonzero and either below 1e-4 or at least 1e16. -/
def usesSciNotation (p : ℕ × ℕ) : Bool :=
  (p.1 != 0) &&
    (decide (p.1 * 10 ^ 4 < 10 ^ p.2) || decide (10 ^ (16 + p.2) ≤ p.1))

/-- Model of `astype(str)` on one already-coerced cell holding `m / 10 ^ k`:
Python renders the float positionally, except in the scientific-notation range. -/
def stringifyCell (p : ℕ × ℕ) : Str :=
  if usesSciNotation p then sciRender p else stringifyParts p

/-- A raw row as read from the CSV, after the positional renaming of
`load_data` (line 126–131 of `src/app.py`): eleven text cells. -/
structure RawRecord where
  sr_no : Str
  agency_name : Str
  unique_id : Str
  state : Str
  agency_type : Str
  category : Str
  child_expenditure_limit_assigned : Str
  success : Str
  pending : Str
  re_initiated : Str
  balance : Str
deriving DecidableEq

/-- A row after the cleaning loop of lines 206–209: the five amount columns
are numeric, the rest stay text. -/
structure Record where
  sr_no : Str
  agency_name : Str
  unique_id : Str
  state : Str
  agency_type : Str
  category : Str
  child_expenditure_limit_assigned : ℚ
  success : ℚ
  pending : ℚ
  re_initiated : ℚ
  balance : ℚ
deriving DecidableEq

/-- The cleaning loop of lines 206–209 applied to one row: coerce each of the
five amount cells, leave the six text cells unchanged. -/
def normalizeRecord (r : RawRecord) : Record where
  sr_no := r.sr_no
  agency_name := r.agency_name
  unique_id := r.unique_id
  state := r.state
  agency_type := r.agency_type
  category := r.category
  child_expenditure_limit_assigned := parseAmount r.child_expenditure_limit_assigned
  success := parseAmount r.success
  pending := parseAmount r.pending
  re_initiated := parseAmount r.re_initiated
  balance := parseAmount r.balance

/-- The cleaning loop of lines 206–209 over the whole dataframe. -/
def normalizeData (df : List RawRecord) : List Record := df.map normalizeRecord

/-- Render an already-normalized row back to text cells (`astype(str)` on the five
numeric columns, scientific notation included), so the cleaning loop can be run on
it a second time. -/
def restringifyRecord (r : RawRecord) : RawRecord :=
  { r with
    child_expenditure_limit_assigned :=
      stringifyCell (parseAmountParts r.child_expenditure_limit_assigned)
    success := stringifyCell (parseAmountParts r.success)
    pending := stringifyCell (parseAmountParts r.pending)
    re_initiated := stringifyCell (parseAmountParts r.re_initiated)
    balance := stringifyCell (parseAmountParts r.balance) }

/-- The five amount cells of a raw row all coerce to values that `astype(str)`
renders positionally (zero or in [1e-4, 1e16)), so no `e` marks can appear when
the row is stringified for a second cleaning pass. -/
def positionallyRendered (r : RawRecord) : Prop :=
  usesSciNotation (parseAmountParts r.child_expenditure_limit_assigned) = false ∧
  usesSciNotation (parseAmountParts r.success) = false ∧
  usesSciNotation (parseAmountParts r.pending) = false ∧
  usesSciNotation (parseAmountParts r.re_initiated) = false ∧
  usesSciNotation (parseAmountParts r.balance) = false

instance (r : RawRecord) : Decidable (positionallyRendered r) := by
  rw [positionallyRendered]
  infer_instance

/-- The four sidebar selections of lines 215–245: each is either the wildcard
sentinel of its level or a concrete value. -/
structure Selection where
  state : Str
  category : Str
  agency_name : Str
  unique_id : Str
deriving DecidableEq

/-- Wildcard sentinel of the state selectbox (line 217). -/
def allStates : Str := str "All States"

/-- Wildcard sentinel of the category selectbox (line 226). -/
def allCategories : Str := str "All Categories"

/-- Wildcard sentinel of the agency selectbox (line 235). -/
def allAgencies : Str := str "All Agencies"

/-- Wildcard sentinel of the unique-code selectbox (line 244). -/
def allCodes : Str := str "All Codes"

/-- One stage of lines 249–256: apply a filter only when its selection is active. -/
def filterStage (c : Prop) [Decidable c] (p : Record → Bool) (l : List Record) :
    List Record :=
  if c then l.filter p else l


/-- Line 217: the state options are the wildcard followed by the sorted distinct
uppercased states of the full dataframe. -/
def state_options (df : List Record) : List Str :=
  allStates :: sortedUnique (df.map (fun r => upper r.state))

/-- Lines 220–222: the dataframe the category options are drawn from — the full
dataframe, filtered by the state selection when one is active. -/
def df_for_category_selection (df : List Record) (sel : Selection) : List Record :=
  if sel.state ≠ allStates then df.filter (fun r => upper r.state == sel.state) else df

/-- Line 226: the category options given the state selection. -/
def category_options (df : List Record) (sel : Selection) : List Str :=
  allCategories :: sortedUnique ((df_for_category_selection df sel).map Record.category)

/-- Lines 229–231: the dataframe the agency options are drawn from. -/
def df_for_agency_selection (df : List Record) (sel : Selection) : List Record :=
  if sel.category ≠ allCategories then
    (df_for_category_selection df sel).filter (fun r => r.category == sel.category)
  else df_for_category_selection df sel

/-- Line 235: the agency options given the state and category selections. -/
def agency_options (df : List Record) (sel : Selection) : List Str :=
  allAgencies :: sortedUnique ((df_for_agency_selection df sel).map Record.agency_name)

/-- Lines 238–240: the dataframe the unique-code options are drawn from. -/
def df_for_unique_code_selection (df : List Record) (sel : Selection) : List Record :=
  if sel.agency_name ≠ allAgencies then
    (df_for_agency_selection df sel).filter (fun r => r.agency_name == sel.agency_name)
  else df_for_agency_selection df sel

/-- Line 244: the unique-code options given the three earlier selections. -/
def unique_id_options (df : List Record) (sel : Selection) : List Str :=
  allCodes :: sortedUnique ((df_for_unique_code_selection df sel).map Record.unique_id)

/-- The four cascade-level option lists one interaction pass computes
(state, category, agency, unique code). -/
def optionLists (df : List Record) (sel : Selection) :
    List Str × List Str × List Str × List Str :=
  (state_options df, category_options df sel, agency_options df sel,
    unique_id_options df sel)

/-- Lines 248–256: the filtered dataframe — each non-wildcard selection is applied
in turn to the full dataframe. -/
def df_filtered (df : List Record) (sel : Selection) : List Record :=
  filterStage (sel.unique_id ≠ allCodes) (fun r => r.unique_id == sel.unique_id)
    (filterStage (sel.agency_name ≠ allAgencies) (fun r => r.agency_name == sel.agency_name)
      (filterStage (sel.category ≠ allCategories) (fun r => r.category == sel.category)
        (filterStage (sel.state ≠ allStates) (fun r => upper r.state == sel.state) df)))

/-- Modelled from the spec: "the final filtered subset applies all four active
constraints simultaneously (logical AND)". -/
def simultaneousAndFilter (df : List Record) (sel : Selection) : List Record :=
  df.filter (fun r =>
    (sel.state == allStates || upper r.state == sel.state) &&
    (sel.category == allCategories || r.category == sel.category) &&
    (sel.agency_name == allAgencies || r.agency_name == sel.agency_name) &&
    (sel.unique_id == allCodes || r.unique_id == sel.unique_id))

/-- Line 263: sum of the limit column of the filtered subset. -/
def total_limit (rows : List Record) : ℚ :=
  (rows.map Record.child_expenditure_limit_assigned).sum

/-- Line 264: sum of the success column. -/
def total_success (rows : List Record) : ℚ := (rows.map Record.success).sum

/-- Line 265: sum of the pending column. -/
def total_pending (rows : List Record) : ℚ := (rows.map Record.pending).sum

/-- Line 266: sum of the re-initiated column. -/
def total_reinitiated (rows : List Record) : ℚ := (rows.map Record.re_initiated).sum

/-- Line 267: sum of the balance column. -/
def total_balance (rows : List Record) : ℚ := (rows.map Record.balance).sum

/-- Line 269: `(total_success / total_limit) * 100 if total_limit != 0 else 0`. -/
def success_rate (rows : List Record) : ℚ :=
  if total_limit rows ≠ 0 then total_success rows / total_limit rows * 100 else 0

/-- Line 378: `df_filtered.groupby('category')[['success', 'pending',
're_initiated']].sum()` — one row per distinct category present, carrying the three
status sums of that category's rows. -/
def category_summary (rows : List Record) : List (Str × ℚ × ℚ × ℚ) :=
  (sortedUnique (rows.map Record.category)).map (fun c =>
    (c, total_success (rows.filter (fun r => r.category == c)),
        total_pending (rows.filter (fun r => r.category == c)),
        total_reinitiated (rows.filter (fun r => r.category == c))))

/-- The per-state limit sums underlying line 419's `groupby('state')`. -/
def state_groups (rows : List Record) : List (Str × ℚ) :=
  (sortedUnique (rows.map Record.state)).map (fun s =>
    (s, total_limit (rows.filter (fun r => r.state == s))))

/-- Lines 418–442: the top-10-states summary is computed (per-state limit sums,
largest first, at most ten rows) only when the state selection is the wildcard;
otherwise the branch shows an informational message instead — `none` models that
"not applicable" outcome. -/
def state_summary (rows : List Record) (sel : Selection) : Option (List (Str × ℚ)) :=
  if sel.state = allStates then
    some ((List.insertionSort (fun a b : Str × ℚ => b.2 ≤ a.2) (state_groups rows)).take 10)
  else none

/-- The all-wildcards selection: every level of the cascade left unconstrained. -/
def wildcardSelection : Selection :=
  { state := allStates, category := allCategories,
    agency_name := allAgencies, unique_id := allCodes }

/-- Sample row: an agency of state UP in category Alpha with limit 1 and success 2. -/
def sampleA : Record :=
  { sr_no := str "1", agency_name := str "Agency A", unique_id := str "A1",
    state := str "UP", agency_type := str "Central", category := str "Alpha",
    child_expenditure_limit_assigned := 1, success := 2, pending := 0,
    re_initiated := 0, balance := 0 }

/-- Sample row: an agency of state MH in category Beta with limit 1 and success 0. -/
def sampleB : Record :=
  { sr_no := str "2", agency_name := str "Agency B", unique_id := str "B1",
    state := str "MH", agency_type := str "State", category := str "Beta",
    child_expenditure_limit_assigned := 1, success := 0, pending := 0,
    re_initiated := 0, balance := 0 }

/-- Sample raw row whose amount cells are plain digit strings. -/
def rawSample : RawRecord :=
  { sr_no := str "1", agency_name := str "Agency A", unique_id := str "A1",
    state := str "UP", agency_type := str "Central", category := str "Alpha",
    child_expenditure_limit_assigned := str "1", success := str "2",
    pending := str "0", re_initiated := str "0", balance := str "0" }

/-- Sample raw row whose success cell "0.00001" coerces into Python's
scientific-notation range. -/
def rawSci : RawRecord :=
  { sr_no := str "1", agency_name := str "Agency A", unique_id := str "A1",
    state := str "UP", agency_type := str "Central", category := str "Alpha",
    child_expenditure_limit_assigned := str "1", success := str "0.00001",
    pending := str "0", re_initiated := str "0", balance := str "0" }

/-- A fully constrained selection matching `sampleA`. -/
def uSel : Selection :=
  { state := str "UP", category := str "Alpha",
    agency_name := str "Agency A", unique_id := str "A1" }

/-- The same selection as `uSel` except for the last cascade level. -/
def uSel' : Selection :=
  { state := str "UP", category := str "Alpha",
    agency_name := str "Agency A", unique_id := str "A2" }

/-- A selection constraining only the category, to a value no sample row has. -/
def selCatOnly : Selection :=
  { state := allStates, category := str "Gamma",
    agency_name := allAgencies, unique_id := allCodes }

/-- A selection constraining only the state, to a value no sample row has. -/
def selStateXX : Selection :=
  { state := str "XX", category := allCategories,
    agency_name := allAgencies, unique_id := allCodes }

instance : IsTotal (Str × ℚ) (fun a b => b.2 ≤ a.2) :=
  ⟨fun a b => le_total b.2 a.2⟩

instance : IsTrans (Str × ℚ) (fun a b => b.2 ≤ a.2) :=
  ⟨fun _ _ _ hab hbc => le_trans hbc hab⟩

theorem natOfDigits_nil : natOfDigits [] = 0 := rfl

theorem foldl_natOfDigits (l : Str) :
    ∀ a : ℕ, l.foldl (fun a c => 10 * a + charVal c) a = a * 10 ^ l.length + natOfDigits l := by
  induction l with
  | nil => intro a; simp [natOfDigits]
  | cons c t ih =>
    intro a
    show List.foldl _ (10 * a + charVal c) t = _
    rw [ih (10 * a + charVal c)]
    show _ = a * 10 ^ (t.length + 1) + natOfDigits (c :: t)
    have hc : natOfDigits (c :: t) = charVal c * 10 ^ t.length + natOfDigits t := by
      show List.foldl _ (10 * 0 + charVal c) t = _
      rw [ih (10 * 0 + charVal c)]
      ring_nf
    rw [hc]
    ring

theorem natOfDigits_append (a b : Str) :
    natOfDigits (a ++ b) = natOfDigits a * 10 ^ b.length + natOfDigits b := by
  show List.foldl _ 0 (a ++ b) = _
  rw [List.foldl_append]
  exact foldl_natOfDigits b (natOfDigits a)

theorem natOfDigits_replicate_zero (n : ℕ) : natOfDigits (List.replicate n '0') = 0 := by
  induction n with
  | zero => rfl
  | succ k ih =>
    have : List.replicate (k + 1) '0' = List.replicate k '0' ++ ['0'] := by
      rw [List.replicate_succ']
    rw [this, natOfDigits_append, ih]
    rfl

theorem natOfDigits_pad (n : ℕ) (l : Str) :
    natOfDigits (List.replicate n '0' ++ l) = natOfDigits l := by
  rw [natOfDigits_append, natOfDigits_replicate_zero]
  ring

theorem isDigit_digitChar (d : ℕ) : (digitChar d).isDigit = true := by
  rcases d with _ | _ | _ | _ | _ | _ | _ | _ | _ | d <;> rfl

theorem charVal_digitChar (d : ℕ) (h : d < 10) : charVal (digitChar d) = d := by
  interval_cases d <;> rfl

theorem isDigit_of_mem_digitChars (c : Char) (m : ℕ) (h : c ∈ digitChars m) :
    c.isDigit = true := by
  rw [digitChars, List.mem_reverse, List.mem_map] at h
  obtain ⟨d, _, rfl⟩ := h
  exact isDigit_digitChar d

theorem natOfDigits_rev_map (ds : List ℕ) (h : ∀ d ∈ ds, d < 10) :
    natOfDigits ((ds.map digitChar).reverse) = Nat.ofDigits 10 ds := by
  induction ds with
  | nil => rfl
  | cons d t ih =>
    have hd : d < 10 := h d (List.mem_cons_self d t)
    have ht : ∀ x ∈ t, x < 10 := fun x hx => h x (List.mem_cons_of_mem d hx)
    rw [List.map_cons, List.reverse_cons, natOfDigits_append, ih ht, Nat.ofDigits_cons]
    have h1 : natOfDigits [digitChar d] = charVal (digitChar d) := by
      show 10 * 0 + charVal (digitChar d) = _
      ring
    rw [h1, charVal_digitChar d hd]
    simp
    ring

theorem natOfDigits_digitChars (m : ℕ) : natOfDigits (digitChars m) = m := by
  rw [digitChars, natOfDigits_rev_map (Nat.digits 10 m)
    (fun d hd => Nat.digits_lt_base (by norm_num) hd)]
  exact Nat.ofDigits_digits 10 m

theorem count_dot_split (a b : Str) (ha : '.' ∉ a) :
    (a ++ '.' :: b).count '.' = 1 + b.count '.' := by
  rw [List.count_append, List.count_cons]
  have h0 : a.count '.' = 0 := by
    rw [List.count_eq_zero]
    exact ha
  simp [h0]
  ring

theorem fracLen_split (a b : Str) (hb : '.' ∉ b) :
    fracLen (a ++ '.' :: b) = b.length := by
  have hmem : '.' ∈ a ++ '.' :: b := List.mem_append_right a (List.mem_cons_self '.' b)
  rw [fracLen, if_pos hmem]
  have hrev : (a ++ '.' :: b).reverse = b.reverse ++ '.' :: a.reverse := by
    rw [List.reverse_append, List.reverse_cons, List.append_assoc]
    rfl
  rw [hrev]
  have hself : b.reverse.takeWhile (fun c => c != '.') = b.reverse := by
    rw [List.takeWhile_eq_self_iff]
    intro x hx
    have : x ≠ '.' := fun he => hb (by rw [← he]; exact List.mem_reverse.mp hx)
    simp [this]
  rw [List.takeWhile_append, hself, if_pos rfl]
  have hstop : List.takeWhile (fun c => c != '.') ('.' :: a.reverse) = [] := by
    simp [List.takeWhile_cons]
  rw [hstop]
  simp

theorem filter_isDigit_split (a b : Str) (ha : ∀ c ∈ a, c.isDigit = true)
    (hb : ∀ c ∈ b, c.isDigit = true) :
    (a ++ '.' :: b).filter Char.isDigit = a ++ b := by
  rw [List.filter_append, List.filter_cons]
  have : ('.' : Char).isDigit = false := rfl
  rw [List.filter_eq_self.mpr ha, List.filter_eq_self.mpr hb]
  simp [this]

theorem any_isDigit_split (a b : Str) :
    (a ++ '.' :: b).any Char.isDigit = (a.any Char.isDigit || b.any Char.isDigit) := by
  have : ('.' : Char).isDigit = false := rfl
  simp [List.any_append, this]

/-- Parsing a cell of the form `digits ++ "." ++ digits` (with a digit present)
yields exactly the denoted decimal value. -/
theorem toNumeric_split (a b : Str) (ha : ∀ c ∈ a, c.isDigit = true)
    (hb : ∀ c ∈ b, c.isDigit = true) (hne : a ≠ [] ∨ b ≠ []) :
    toNumeric (a ++ '.' :: b) =
      some ((natOfDigits (a ++ b) : ℚ) / 10 ^ b.length) := by
  have hca : '.' ∉ a := fun hm => by have := ha '.' hm; simp at this
  have hcb : '.' ∉ b := fun hm => by have := hb '.' hm; simp at this
  have hcount : (a ++ '.' :: b).count '.' ≤ 1 := by
    rw [count_dot_split a b hca]
    have : b.count '.' = 0 := List.count_eq_zero.mpr hcb
    omega
  have hany : (a ++ '.' :: b).any Char.isDigit = true := by
    rw [any_isDigit_split]
    rcases hne with h | h
    · obtain ⟨c, hc⟩ := List.exists_mem_of_ne_nil a h
      have := ha c hc
      simp [List.any_eq_true]
      exact Or.inl ⟨c, hc, this⟩
    · obtain ⟨c, hc⟩ := List.exists_mem_of_ne_nil b h
      have := hb c hc
      simp [List.any_eq_true]
      exact Or.inr ⟨c, hc, this⟩
  rw [toNumeric, toNumericParts, if_pos ⟨hcount, hany⟩]
  rw [filter_isDigit_split a b ha hb, fracLen_split a b hcb]
  rfl

theorem stripCell_eq_self (s : Str) (h : ∀ c ∈ s, isAmountChar c = true) :
    stripCell s = s := List.filter_eq_self.mpr h

theorem isAmountChar_of_isDigit (c : Char) (h : c.isDigit = true) :
    isAmountChar c = true := by
  rw [isAmountChar, h]
  rfl

/-- Parsing a non-empty all-digit cell yields the digit string's value. -/
theorem toNumeric_digits (a : Str) (ha : ∀ c ∈ a, c.isDigit = true) (hne : a ≠ []) :
    toNumeric a = some ((natOfDigits a : ℚ)) := by
  have hca : '.' ∉ a := fun hm => by have := ha '.' hm; simp at this
  have hcount : a.count '.' ≤ 1 := by
    have : a.count '.' = 0 := List.count_eq_zero.mpr hca
    omega
  have hany : a.any Char.isDigit = true := by
    obtain ⟨c, hc⟩ := List.exists_mem_of_ne_nil a hne
    exact List.any_eq_true.mpr ⟨c, hc, ha c hc⟩
  rw [toNumeric, toNumericParts, if_pos ⟨hcount, hany⟩, List.filter_eq_self.mpr ha]
  have hfl : fracLen a = 0 := by rw [fracLen, if_neg hca]
  rw [hfl]
  simp

/-- Re-parsing the positional decimal rendering of `m / 10 ^ k` recovers the value. -/
theorem parse_stringifyParts (p : ℕ × ℕ) :
    parseAmount (stringifyParts p) = (p.1 : ℚ) / 10 ^ p.2 := by
  obtain ⟨m, k⟩ := p
  by_cases hk : k = 0
  · subst hk
    rw [stringifyParts]
    simp only [ite_true, if_pos rfl]
    have hform : digitChars m ++ ['.', '0'] = digitChars m ++ '.' :: ['0'] := rfl
    have ha : ∀ c ∈ digitChars m, c.isDigit = true :=
      fun c hc => isDigit_of_mem_digitChars c m hc
    have hb : ∀ c ∈ ['0'], c.isDigit = true := by intro c hc; simp at hc; rw [hc]; rfl
    have hstrip : stripCell (digitChars m ++ '.' :: ['0']) = digitChars m ++ '.' :: ['0'] := by
      apply stripCell_eq_self
      intro c hc
      rcases List.mem_append.mp hc with h1 | h1
      · exact isAmountChar_of_isDigit c (ha c h1)
      · rcases List.mem_cons.mp h1 with h2 | h2
        · rw [h2]; rfl
        · exact isAmountChar_of_isDigit c (hb c h2)
    rw [parseAmount, hform, hstrip, toNumeric_split _ _ ha hb (Or.inr (by simp))]
    have hval : natOfDigits (digitChars m ++ ['0']) = 10 * m := by
      rw [natOfDigits_append, natOfDigits_digitChars]
      show m * 10 ^ 1 + (10 * 0 + charVal '0') = 10 * m
      have : charVal '0' = 0 := rfl
      rw [this]
      ring
    rw [hval, Option.getD_some]
    show ((10 * m : ℕ) : ℚ) / 10 ^ 1 = (m : ℚ) / 10 ^ 0
    push_cast
    field_simp
  · rw [stringifyParts]
    simp only [if_neg hk]
    set ds : Str := List.replicate (k + 1 - (digitChars m).length) '0' ++ digitChars m with hds
    have hdd : ∀ c ∈ ds, c.isDigit = true := by
      intro c hc
      rcases List.mem_append.mp hc with h1 | h1
      · rw [List.eq_of_mem_replicate h1]; rfl
      · exact isDigit_of_mem_digitChars c m h1
    have hlen : k + 1 ≤ ds.length := by
      rw [hds, List.length_append, List.length_replicate]
      omega
    set a : Str := ds.take (ds.length - k) with hA
    set b : Str := ds.drop (ds.length - k) with hB
    have hab : a ++ b = ds := List.take_append_drop _ ds
    have ha : ∀ c ∈ a, c.isDigit = true := fun c hc => hdd c (List.take_subset _ ds hc)
    have hb : ∀ c ∈ b, c.isDigit = true := fun c hc => hdd c (List.drop_subset _ ds hc)
    have hblen : b.length = k := by
      rw [hB, List.length_drop]
      omega
    have hane : a ≠ [] := by
      intro h0
      have : a.length = 0 := by rw [h0]; rfl
      rw [hA, List.length_take] at this
      omega
    have hstrip : stripCell (a ++ '.' :: b) = a ++ '.' :: b := by
      apply stripCell_eq_self
      intro c hc
      rcases List.mem_append.mp hc with h1 | h1
      · exact isAmountChar_of_isDigit c (ha c h1)
      · rcases List.mem_cons.mp h1 with h2 | h2
        · rw [h2]; rfl
        · exact isAmountChar_of_isDigit c (hb c h2)
    rw [parseAmount, hstrip, toNumeric_split a b ha hb (Or.inl hane)]
    rw [Option.getD_some, hab, hblen, hds, natOfDigits_pad, natOfDigits_digitChars]

/-- The value the coercion assigns to a cell, recovered from its `(m, k)` parts. -/
theorem parseAmount_eq_parts (s : Str) :
    parseAmount s = ((parseAmountParts s).1 : ℚ) / 10 ^ (parseAmountParts s).2 := by
  rw [parseAmount, parseAmountParts, toNumeric]
  cases h : toNumericParts (stripCell s) with
  | none => simp
  | some p => simp

theorem parseAmount_stringify_parts (s : Str) :
    parseAmount (stringifyParts (parseAmountParts s)) = parseAmount s := by
  rw [parse_stringifyParts, ← parseAmount_eq_parts]

theorem parseAmount_nonneg (s : Str) : 0 ≤ parseAmount s := by
  rw [parseAmount_eq_parts]
  positivity

theorem parseAmount_stringifyCell (s : Str)
    (h : usesSciNotation (parseAmountParts s) = false) :
    parseAmount (stringifyCell (parseAmountParts s)) = parseAmount s := by
  rw [stringifyCell, if_neg (by rw [h]; exact Bool.false_ne_true)]
  exact parseAmount_stringify_parts s

/-- Claim C7 as stated is false on the program: the cell "0.00001" coerces to
1e-05, which `astype(str)` renders as "1e-05"; the second pass's strip of line 208
deletes the `e` and the sign, leaving "105", so the second coercion yields 105,
not the first pass's value — re-running normalization changes the dataset. -/
theorem C7_counterexample :
    parseAmount (str "0.00001") = 1 / 100000 ∧
    stringifyCell (parseAmountParts (str "0.00001")) = str "1e-05" ∧
    parseAmount (stringifyCell (parseAmountParts (str "0.00001"))) = 105 ∧
    normalizeData ([rawSci].map restringifyRecord) ≠ normalizeData [rawSci] := by
  have hparts : parseAmountParts (str "0.00001") = (1, 5) := by decide
  have hp0 : toNumericParts (stripCell (str "0.00001")) = some (1, 5) := by decide
  have hfirst : parseAmount (str "0.00001") = 1 / 100000 := by
    rw [parseAmount, toNumeric, hp0]
    norm_num
  have hd1 : digitChars 1 = ['1'] := by simp [digitChars, digitChar]
  have hd5 : digitChars 5 = ['5'] := by simp [digitChars, digitChar]
  have hcell : stringifyCell (parseAmountParts (str "0.00001")) = str "1e-05" := by
    rw [hparts, stringifyCell, if_pos (by decide)]
    simp [sciRender, stripTrailingZeros, expDigits, hd1, hd5, str]
  have hsecond : parseAmount (str "1e-05") = 105 := by
    have hp : toNumericParts (stripCell (str "1e-05")) = some (105, 0) := by decide
    rw [parseAmount, toNumeric, hp]
    norm_num
  have hre : parseAmount (stringifyCell (parseAmountParts (str "0.00001"))) = 105 := by
    rw [hcell]
    exact hsecond
  refine ⟨hfirst, hcell, hre, ?_⟩
  intro heq
  simp only [normalizeData, List.map_cons, List.map_nil, List.cons.injEq,
    and_true] at heq
  have hsucc := congrArg Record.success heq
  simp only [normalizeRecord, restringifyRecord, rawSci] at hsucc
  rw [hre, hfirst] at hsucc
  norm_num at hsucc

/-- Claim C7 (amended): the numeric coercion is idempotent on every dataset whose
already-coerced amount values are rendered positionally by `astype(str)` — each
value zero or in [1e-4, 1e16) — re-running the cleaning loop of lines 206–209 on
the stringified dataset then reproduces the first pass's value on every cell. For
a value in Python's scientific-notation range the second pass strips the `e` and
sign marks and the value changes, as `C7_counterexample` shows. -/
theorem C7_normalization_idempotent_positional (df : List RawRecord)
    (h : ∀ r ∈ df, positionallyRendered r) :
    normalizeData (df.map restringifyRecord) = normalizeData df := by
  rw [normalizeData, normalizeData, List.map_map]
  refine List.map_congr_left fun r hr => ?_
  obtain ⟨h1, h2, h3, h4, h5⟩ := h r hr
  show normalizeRecord (restringifyRecord r) = normalizeRecord r
  simp only [normalizeRecord, restringifyRecord, parseAmount_stringifyCell _ h1,
    parseAmount_stringifyCell _ h2, parseAmount_stringifyCell _ h3,
    parseAmount_stringifyCell _ h4, parseAmount_stringifyCell _ h5]

/-- Witness for the amended C7: a one-row dataset whose five cells all coerce to
positionally rendered values survives a second cleaning pass unchanged. -/
theorem C7_witness :
    normalizeData ([rawSample].map restringifyRecord) = normalizeData [rawSample] :=
  C7_normalization_idempotent_positional [rawSample] (by decide)

/-- Claim C8: after normalization every record's five amount fields are
non-negative rationals — hence finite values, never an error state: the coercion is
total and an unparsable cell becomes zero, which the first conjunct covers since
`parseAmount` underlies every field. -/
theorem C8_normalized_record_nonneg (df : List RawRecord) (r : Record)
    (hr : r ∈ normalizeData df) :
    0 ≤ r.child_expenditure_limit_assigned ∧ 0 ≤ r.success ∧ 0 ≤ r.pending ∧
      0 ≤ r.re_initiated ∧ 0 ≤ r.balance := by
  obtain ⟨raw, _, rfl⟩ := List.mem_map.mp hr
  exact ⟨parseAmount_nonneg _, parseAmount_nonneg _, parseAmount_nonneg _,
    parseAmount_nonneg _, parseAmount_nonneg _⟩

/-- Witness for C8 at a concrete one-row dataset. -/
theorem C8_witness :
    0 ≤ (normalizeRecord rawSample).child_expenditure_limit_assigned ∧
      0 ≤ (normalizeRecord rawSample).success ∧
      0 ≤ (normalizeRecord rawSample).pending ∧
      0 ≤ (normalizeRecord rawSample).re_initiated ∧
      0 ≤ (normalizeRecord rawSample).balance :=
  C8_normalized_record_nonneg [rawSample] (normalizeRecord rawSample)
    (List.mem_map_of_mem normalizeRecord (List.mem_singleton_self rawSample))

theorem filterStage_subset (c : Prop) [Decidable c] (p : Record → Bool)
    (l : List Record) (r : Record) (h : r ∈ filterStage c p l) : r ∈ l := by
  rw [filterStage] at h
  split at h
  · exact List.mem_of_mem_filter h
  · exact h

theorem length_filterStage_le (c : Prop) [Decidable c] (p : Record → Bool)
    (l : List Record) : (filterStage c p l).length ≤ l.length := by
  rw [filterStage]
  split
  · exact List.length_filter_le p l
  · exact le_rfl

/-- An optional filter stage is the unconditional filter whose predicate is
weakened by the wildcard test. -/
theorem filterStage_as_or (c : Prop) [Decidable c] (q : Bool) (hq : c ↔ q = false)
    (p : Record → Bool) (l : List Record) :
    filterStage c p l = List.filter (fun r => q || p r) l := by
  rw [filterStage]
  by_cases h : c
  · rw [if_pos h]
    exact List.filter_congr fun r _ => by rw [hq.mp h, Bool.false_or]
  · rw [if_neg h]
    have hqt : q = true := by
      cases hqv : q
      · exact absurd (hq.mpr hqv) h
      · rfl
    have hfun : (fun r : Record => q || p r) = fun _ => true := by
      funext r
      rw [hqt, Bool.true_or]
    rw [hfun, List.filter_true]

/-- The sequential filtering of lines 248–256 equals the one-pass conjunction
filter the spec describes. -/
theorem df_filtered_eq_simultaneousAnd (df : List Record) (sel : Selection) :
    df_filtered df sel = simultaneousAndFilter df sel := by
  rw [df_filtered, simultaneousAndFilter,
    filterStage_as_or _ (sel.state == allStates) beq_eq_false_iff_ne.symm,
    filterStage_as_or _ (sel.category == allCategories) beq_eq_false_iff_ne.symm,
    filterStage_as_or _ (sel.agency_name == allAgencies) beq_eq_false_iff_ne.symm,
    filterStage_as_or _ (sel.unique_id == allCodes) beq_eq_false_iff_ne.symm,
    List.filter_filter, List.filter_filter, List.filter_filter]
  exact List.filter_congr fun r _ => by
    cases sel.state == allStates || (upper r.state == sel.state) <;>
      cases sel.category == allCategories || (r.category == sel.category) <;>
      cases sel.agency_name == allAgencies || (r.agency_name == sel.agency_name) <;>
      cases sel.unique_id == allCodes || (r.unique_id == sel.unique_id) <;> rfl

theorem mem_of_mem_df_filtered (df : List Record) (sel : Selection) (r : Record)
    (h : r ∈ df_filtered df sel) : r ∈ df := by
  rw [df_filtered] at h
  exact filterStage_subset _ _ _ r
    (filterStage_subset _ _ _ r
      (filterStage_subset _ _ _ r
        (filterStage_subset _ _ _ r h)))

/-- Claim C4: filtering applies the four constraints as one simultaneous logical
AND; the result never has more rows than the dataset, and with every selection at
its wildcard sentinel it is the whole dataset (so its size is exactly the
dataset's). -/
theorem C4_filtered_subset_size (df : List Record) (sel : Selection) :
    df_filtered df sel = simultaneousAndFilter df sel ∧
    (df_filtered df sel).length ≤ df.length ∧
    (sel = wildcardSelection →
      df_filtered df sel = df ∧ (df_filtered df sel).length = df.length) := by
  refine ⟨df_filtered_eq_simultaneousAnd df sel, ?_, ?_⟩
  · rw [df_filtered_eq_simultaneousAnd, simultaneousAndFilter]
    exact List.length_filter_le _ df
  · intro h
    subst h
    have hall : df_filtered df wildcardSelection = df := by
      simp [df_filtered, filterStage, wildcardSelection]
    exact ⟨hall, by rw [hall]⟩

/-- Witness for C4: the all-wildcards selection leaves a one-row dataset intact. -/
theorem C4_witness :
    df_filtered [sampleA] wildcardSelection = [sampleA] ∧
    (df_filtered [sampleA] wildcardSelection).length = [sampleA].length :=
  (C4_filtered_subset_size [sampleA] wildcardSelection).2.2 rfl

theorem df_for_category_selection_congr (df : List Record) (s t : Selection)
    (h : s.state = t.state) :
    df_for_category_selection df s = df_for_category_selection df t := by
  rw [df_for_category_selection, df_for_category_selection, h]

theorem df_for_agency_selection_congr (df : List Record) (s t : Selection)
    (h1 : s.state = t.state) (h2 : s.category = t.category) :
    df_for_agency_selection df s = df_for_agency_selection df t := by
  rw [df_for_agency_selection, df_for_agency_selection, h2,
    df_for_category_selection_congr df s t h1]

theorem df_for_unique_code_selection_congr (df : List Record) (s t : Selection)
    (h1 : s.state = t.state) (h2 : s.category = t.category)
    (h3 : s.agency_name = t.agency_name) :
    df_for_unique_code_selection df s = df_for_unique_code_selection df t := by
  rw [df_for_unique_code_selection, df_for_unique_code_selection, h3,
    df_for_agency_selection_congr df s t h1 h2]

/-- Claim C1: the state option list is computed from the full dataset only, so it
is the same for any two selections; each later cascade level's option list depends
only on the strictly earlier levels' selections (state, then category, then
agency, then unique id) — in particular changing the category never alters the
state list — while changing the state can alter the category list, as the final
conjunct exhibits on a concrete dataset. -/
theorem C1_cascade_option_independence (df : List Record) (sel sel' : Selection) :
    (optionLists df sel).1 = (optionLists df sel').1 ∧
    (sel.state = sel'.state →
      (optionLists df sel).2.1 = (optionLists df sel').2.1) ∧
    (sel.state = sel'.state → sel.category = sel'.category →
      (optionLists df sel).2.2.1 = (optionLists df sel').2.2.1) ∧
    (sel.state = sel'.state → sel.category = sel'.category →
      sel.agency_name = sel'.agency_name →
      (optionLists df sel).2.2.2 = (optionLists df sel').2.2.2) ∧
    (∃ (d : List Record) (t t' : Selection), t.category = t'.category ∧
      category_options d t ≠ category_options d t') := by
  refine ⟨rfl, ?_, ?_, ?_, ?_⟩
  · intro h1
    show category_options df sel = category_options df sel'
    rw [category_options, category_options,
      df_for_category_selection_congr df sel sel' h1]
  · intro h1 h2
    show agency_options df sel = agency_options df sel'
    rw [agency_options, agency_options,
      df_for_agency_selection_congr df sel sel' h1 h2]
  · intro h1 h2 h3
    show unique_id_options df sel = unique_id_options df sel'
    rw [unique_id_options, unique_id_options,
      df_for_unique_code_selection_congr df sel sel' h1 h2 h3]
  · refine ⟨[sampleA, sampleB],
      { state := str "UP", category := allCategories,
        agency_name := allAgencies, unique_id := allCodes },
      { state := str "MH", category := allCategories,
        agency_name := allAgencies, unique_id := allCodes }, rfl, ?_⟩
    decide

/-- Witness for C1: two selections that agree on every earlier level produce the
same category, agency, and unique-code option lists on a concrete dataset. -/
theorem C1_witness :
    (optionLists [sampleA, sampleB] uSel).2.1
        = (optionLists [sampleA, sampleB] uSel').2.1 ∧
    (optionLists [sampleA, sampleB] uSel).2.2.1
        = (optionLists [sampleA, sampleB] uSel').2.2.1 ∧
    (optionLists [sampleA, sampleB] uSel).2.2.2
        = (optionLists [sampleA, sampleB] uSel').2.2.2 := by
  have h := C1_cascade_option_independence [sampleA, sampleB] uSel uSel'
  exact ⟨h.2.1 rfl, h.2.2.1 rfl rfl, h.2.2.2.1 rfl rfl rfl⟩

/-- Claim C3: the derived success rate of the filtered subset is
sum(success) / sum(limit) × 100 when the limit sum is nonzero and exactly 0 when
it is zero; in the rational model the guarded division can neither raise nor
produce a NaN value. -/
theorem C3_success_rate_division_safe (df : List Record) (sel : Selection) :
    (total_limit (df_filtered df sel) ≠ 0 →
      success_rate (df_filtered df sel)
        = total_success (df_filtered df sel) / total_limit (df_filtered df sel) * 100) ∧
    (total_limit (df_filtered df sel) = 0 → success_rate (df_filtered df sel) = 0) := by
  constructor
  · intro h
    rw [success_rate, if_pos h]
  · intro h
    rw [success_rate, if_neg (fun hn => hn h)]

/-- Witness for C3 on a concrete one-row dataset with limit sum 1. -/
theorem C3_witness :
    success_rate (df_filtered [sampleA] wildcardSelection)
      = total_success (df_filtered [sampleA] wildcardSelection)
        / total_limit (df_filtered [sampleA] wildcardSelection) * 100 :=
  (C3_success_rate_division_safe [sampleA] wildcardSelection).1
    (by simp [df_filtered, filterStage, wildcardSelection, total_limit, sampleA])

theorem sum_map_add_distrib (f g : Str → ℚ) (l : List Str) :
    (l.map (fun c => f c + g c)).sum = (l.map f).sum + (l.map g).sum := by
  induction l with
  | nil => simp
  | cons a t ih =>
    simp only [List.map_cons, List.sum_cons, ih]
    ring

theorem sum_ite_not_mem (x : Str) (w : ℚ) :
    ∀ keys : List Str, x ∉ keys →
      (keys.map (fun c => if x = c then w else 0)).sum = 0 := by
  intro keys
  induction keys with
  | nil => intro _; rfl
  | cons k t ih =>
    intro hx
    have hxk : x ≠ k := fun he => hx (he ▸ List.mem_cons_self k t)
    have hxt : x ∉ t := fun hm => hx (List.mem_cons_of_mem k hm)
    rw [List.map_cons, List.sum_cons, if_neg hxk, ih hxt, add_zero]

theorem sum_ite_mem (x : Str) (w : ℚ) :
    ∀ keys : List Str, keys.Nodup → x ∈ keys →
      (keys.map (fun c => if x = c then w else 0)).sum = w := by
  intro keys
  induction keys with
  | nil => intro _ hx; cases hx
  | cons k t ih =>
    intro hnd hx
    obtain ⟨hk, ht⟩ := List.nodup_cons.mp hnd
    rw [List.map_cons, List.sum_cons]
    by_cases hxk : x = k
    · rw [if_pos hxk, sum_ite_not_mem x w t (by rw [hxk]; exact hk), add_zero]
    · have hxt : x ∈ t := by
        rcases List.mem_cons.mp hx with h | h
        · exact absurd h hxk
        · exact h
      rw [if_neg hxk, zero_add]
      exact ih ht hxt

/-- Partition law behind `groupby(...).sum()`: summing the per-key group sums over
a duplicate-free key list covering every row reproduces the whole column's sum. -/
theorem groupSum (v : Record → ℚ) (keyf : Record → Str) :
    ∀ (rows : List Record) (keys : List Str), keys.Nodup →
      (∀ r ∈ rows, keyf r ∈ keys) →
      (keys.map (fun c => ((rows.filter (fun r => keyf r == c)).map v).sum)).sum
        = (rows.map v).sum := by
  intro rows
  induction rows with
  | nil =>
    intro keys _ _
    simp
  | cons r t ih =>
    intro keys hnd hmem
    have hterm : ∀ c ∈ keys,
        (((r :: t).filter (fun x => keyf x == c)).map v).sum
          = (if keyf r = c then v r else 0)
            + ((t.filter (fun x => keyf x == c)).map v).sum := by
      intro c _
      by_cases hc : keyf r = c
      · rw [List.filter_cons_of_pos (by exact beq_iff_eq.mpr hc), List.map_cons,
          List.sum_cons, if_pos hc]
      · rw [List.filter_cons_of_neg (by simp [hc]), if_neg hc, zero_add]
    rw [List.map_congr_left hterm,
      sum_map_add_distrib (fun c => if keyf r = c then v r else 0)
        (fun c => ((t.filter (fun x => keyf x == c)).map v).sum) keys,
      sum_ite_mem (keyf r) (v r) keys hnd (hmem r (List.mem_cons_self r t)),
      ih keys hnd (fun x hx => hmem x (List.mem_cons_of_mem r hx)),
      List.map_cons, List.sum_cons]

theorem mem_sortedUnique (x : Str) (l : List Str) : x ∈ sortedUnique l ↔ x ∈ l := by
  rw [sortedUnique, sortStr, (List.perm_insertionSort _ l.dedup).mem_iff,
    List.mem_dedup]

theorem nodup_sortedUnique (l : List Str) : (sortedUnique l).Nodup :=
  (List.perm_insertionSort _ l.dedup).symm.nodup (List.nodup_dedup l)

theorem category_summary_keys (rows : List Record) :
    (category_summary rows).map Prod.fst = sortedUnique (rows.map Record.category) := by
  rw [category_summary, List.map_map]
  exact List.map_id _ ▸ List.map_congr_left fun c _ => rfl

/-- Claim C5: summing each status column of the grouped-by-category summary over
all its rows reproduces the corresponding scalar KPI total of the same filtered
subset, and the summary's key column is duplicate-free and is exactly (a
permutation of the first-occurrence deduplication of) the categories present in
the filtered data — no zero-filled absent categories. -/
theorem C5_category_summary_totals (df : List Record) (sel : Selection) :
    ((category_summary (df_filtered df sel)).map (fun p => p.2.1)).sum
        = total_success (df_filtered df sel) ∧
    ((category_summary (df_filtered df sel)).map (fun p => p.2.2.1)).sum
        = total_pending (df_filtered df sel) ∧
    ((category_summary (df_filtered df sel)).map (fun p => p.2.2.2)).sum
        = total_reinitiated (df_filtered df sel) ∧
    ((category_summary (df_filtered df sel)).map Prod.fst).Nodup ∧
    ((category_summary (df_filtered df sel)).map Prod.fst).Perm
      ((df_filtered df sel).map Record.category).dedup := by
  have hnd : (sortedUnique ((df_filtered df sel).map Record.category)).Nodup :=
    nodup_sortedUnique _
  have hmem : ∀ r ∈ df_filtered df sel,
      r.category ∈ sortedUnique ((df_filtered df sel).map Record.category) := by
    intro r hr
    rw [mem_sortedUnique]
    exact List.mem_map_of_mem Record.category hr
  refine ⟨?_, ?_, ?_, ?_, ?_⟩
  · rw [category_summary, List.map_map]
    exact groupSum Record.success Record.category (df_filtered df sel) _ hnd hmem
  · rw [category_summary, List.map_map]
    exact groupSum Record.pending Record.category (df_filtered df sel) _ hnd hmem
  · rw [category_summary, List.map_map]
    exact groupSum Record.re_initiated Record.category (df_filtered df sel) _ hnd hmem
  · rw [category_summary_keys]
    exact hnd
  · rw [category_summary_keys, sortedUnique, sortStr]
    exact List.perm_insertionSort _ _

/-- Claim C6: with the wildcard state selection the top-N state summary is the
per-state limit sums of the filtered subset, ordered descending and truncated to
at most 10 entries; with any concrete state selected the engine yields the
"not applicable" marker instead of a table. -/
theorem C6_state_summary_topN (df : List Record) (sel : Selection) :
    (sel.state ≠ allStates → state_summary (df_filtered df sel) sel = none) ∧
    (sel.state = allStates → ∃ l,
      state_summary (df_filtered df sel) sel = some l ∧
      l.length ≤ 10 ∧
      List.Pairwise (fun a b : Str × ℚ => b.2 ≤ a.2) l ∧
      ∀ p ∈ l, p.1 ∈ (df_filtered df sel).map Record.state ∧
        p.2 = total_limit ((df_filtered df sel).filter (fun r => r.state == p.1))) := by
  constructor
  · intro h
    rw [state_summary, if_neg h]
  · intro h
    rw [state_summary, if_pos h]
    refine ⟨_, rfl, ?_, ?_, ?_⟩
    · exact List.length_take_le _ _
    · exact List.Pairwise.sublist (List.take_sublist _ _)
        (List.sorted_insertionSort _ _)
    · intro p hp
      have hp1 : p ∈ List.insertionSort (fun a b : Str × ℚ => b.2 ≤ a.2)
          (state_groups (df_filtered df sel)) := List.mem_of_mem_take hp
      have hp2 : p ∈ state_groups (df_filtered df sel) :=
        (List.perm_insertionSort _ _).mem_iff.mp hp1
      rw [state_groups] at hp2
      obtain ⟨s, hs, rfl⟩ := List.mem_map.mp hp2
      exact ⟨(mem_sortedUnique s _).mp hs, rfl⟩

/-- Witness for C6: the wildcard branch yields an actual table on a one-row
dataset. -/
theorem C6_witness : ∃ l,
    state_summary (df_filtered [sampleA] wildcardSelection) wildcardSelection
      = some l ∧
    l.length ≤ 10 ∧
    List.Pairwise (fun a b : Str × ℚ => b.2 ≤ a.2) l ∧
    ∀ p ∈ l, p.1 ∈ (df_filtered [sampleA] wildcardSelection).map Record.state ∧
      p.2 = total_limit ((df_filtered [sampleA] wildcardSelection).filter
        (fun r => r.state == p.1)) :=
  (C6_state_summary_topN [sampleA] wildcardSelection).2 rfl

/-- Claim C9 as stated is false: with a state filter active the empty filtered
subset produces the "not applicable" marker, not an empty top-N table — here the
one-row dataset of state UP filtered by state XX. -/
theorem C9_counterexample :
    df_filtered [sampleA] selStateXX = [] ∧
    state_summary (df_filtered [sampleA] selStateXX) selStateXX = none ∧
    (none : Option (List (Str × ℚ))) ≠ some [] := by
  refine ⟨by decide, ?_, by simp⟩
  rw [state_summary, if_neg (by decide)]

/-- Claim C9 (amended): when the filtered subset is empty, all five scalar sums
are zero, the success rate is zero, the category summary is the empty table, and
the top-N state summary is the empty table whenever the state selection is the
wildcard (with a concrete state selected it is the "not applicable" marker, per
C6); none of these computations can raise. -/
theorem C9_empty_subset_zeroes (df : List Record) (sel : Selection)
    (h : df_filtered df sel = []) :
    total_limit (df_filtered df sel) = 0 ∧
    total_success (df_filtered df sel) = 0 ∧
    total_pending (df_filtered df sel) = 0 ∧
    total_reinitiated (df_filtered df sel) = 0 ∧
    total_balance (df_filtered df sel) = 0 ∧
    success_rate (df_filtered df sel) = 0 ∧
    category_summary (df_filtered df sel) = [] ∧
    (sel.state = allStates → state_summary (df_filtered df sel) sel = some []) := by
  rw [h]
  refine ⟨rfl, rfl, rfl, rfl, rfl, ?_, rfl, ?_⟩
  · simp [success_rate, total_limit]
  · intro hs
    rw [state_summary, if_pos hs]
    rfl

/-- Witness for the amended C9: a category filter matching no row empties the
subset while the state selection stays at its wildcard. -/
theorem C9_witness :
    total_limit (df_filtered [sampleA] selCatOnly) = 0 ∧
    total_success (df_filtered [sampleA] selCatOnly) = 0 ∧
    total_pending (df_filtered [sampleA] selCatOnly) = 0 ∧
    total_reinitiated (df_filtered [sampleA] selCatOnly) = 0 ∧
    total_balance (df_filtered [sampleA] selCatOnly) = 0 ∧
    success_rate (df_filtered [sampleA] selCatOnly) = 0 ∧
    category_summary (df_filtered [sampleA] selCatOnly) = [] ∧
    (selCatOnly.state = allStates →
      state_summary (df_filtered [sampleA] selCatOnly) selCatOnly = some []) :=
  C9_empty_subset_zeroes [sampleA] selCatOnly (by decide)

theorem total_limit_nonneg_of_normalized (raw : List RawRecord) (sel : Selection) :
    0 ≤ total_limit (df_filtered (normalizeData raw) sel) := by
  rw [total_limit]
  apply List.sum_nonneg
  intro x hx
  obtain ⟨r, hr, rfl⟩ := List.mem_map.mp hx
  obtain ⟨rr, _, rfl⟩ := List.mem_map.mp (mem_of_mem_df_filtered _ _ r hr)
  exact parseAmount_nonneg _

/-- Claim C10: the success rate is never clamped — on normalized data, whenever
the filtered subset's limit sum is nonzero and its success sum exceeds its limit
sum, the computed rate exceeds 100 and is exactly the uncapped quotient formula. -/
theorem C10_success_rate_uncapped (raw : List RawRecord) (sel : Selection)
    (h1 : total_limit (df_filtered (normalizeData raw) sel) ≠ 0)
    (h2 : total_limit (df_filtered (normalizeData raw) sel)
        < total_success (df_filtered (normalizeData raw) sel)) :
    100 < success_rate (df_filtered (normalizeData raw) sel) ∧
    success_rate (df_filtered (normalizeData raw) sel)
      = total_success (df_filtered (normalizeData raw) sel)
        / total_limit (df_filtered (normalizeData raw) sel) * 100 := by
  have hpos : 0 < total_limit (df_filtered (normalizeData raw) sel) :=
    lt_of_le_of_ne (total_limit_nonneg_of_normalized raw sel) (Ne.symm h1)
  have hrate : success_rate (df_filtered (normalizeData raw) sel)
      = total_success (df_filtered (normalizeData raw) sel)
        / total_limit (df_filtered (normalizeData raw) sel) * 100 := by
    rw [success_rate, if_pos h1]
  refine ⟨?_, hrate⟩
  rw [hrate]
  have hdiv : 1 < total_success (df_filtered (normalizeData raw) sel)
      / total_limit (df_filtered (normalizeData raw) sel) :=
    (one_lt_div hpos).mpr h2
  calc (100 : ℚ) = 1 * 100 := by norm_num
    _ < total_success (df_filtered (normalizeData raw) sel)
        / total_limit (df_filtered (normalizeData raw) sel) * 100 :=
      mul_lt_mul_of_pos_right hdiv (by norm_num)

/-- Witness for C10: a raw row with limit cell "1" and success cell "2" drives the
rate above 100. -/
theorem C10_witness :
    100 < success_rate (df_filtered (normalizeData [rawSample]) wildcardSelection) := by
  have e1 : parseAmount (str "1") = 1 := by
    have hp : toNumericParts (stripCell (str "1")) = some (1, 0) := by decide
    rw [parseAmount, toNumeric, hp]
    simp
  have e2 : parseAmount (str "2") = 2 := by
    have hp : toNumericParts (stripCell (str "2")) = some (2, 0) := by decide
    rw [parseAmount, toNumeric, hp]
    simp
  have hflt : df_filtered (normalizeData [rawSample]) wildcardSelection
      = [normalizeRecord rawSample] := by
    simp [df_filtered, filterStage, wildcardSelection, normalizeData]
  have h1 : total_limit (df_filtered (normalizeData [rawSample]) wildcardSelection)
      = 1 := by
    rw [hflt]
    simp [total_limit, normalizeRecord, rawSample, e1]
  have h2 : total_success (df_filtered (normalizeData [rawSample]) wildcardSelection)
      = 2 := by
    rw [hflt]
    simp [total_success, normalizeRecord, rawSample, e2]
  exact (C10_success_rate_uncapped [rawSample] wildcardSelection
    (by rw [h1]; exact one_ne_zero) (by rw [h1, h2]; exact one_lt_two)).1
